import Mathlib

/-
  Shallow embedding of the BinaryCIF decoder core of CIFTools.js
  (src/src/Binary/Encoding.ts, src/unnamed/part_000 = the column/table
  view layer, src/unnamed/part_001 = the transform decoders).

  JavaScript numbers are modelled by `JSNum`: an exact rational together
  with the IEEE special values +Infinity, -Infinity and NaN.  The special
  value rules of JS arithmetic (division by zero, Infinity * 0 = NaN,
  NaN propagation, NaN === NaN being false) are modelled exactly; the
  binary64 rounding of finite results is not modelled (no claim settled
  here depends on rounding, only on integer-exact arithmetic and on the
  special values).  Negative zero is not distinguished from zero.
-/

namespace CIFB

/-- JS number: exact rational plus the IEEE special values. -/
inductive JSNum where
  | finite (q : ℚ)
  | posInf
  | negInf
  | nan
deriving DecidableEq, Repr

/-- JS `===` on numbers: NaN compares unequal to everything, itself included. -/
def jsNumEq : JSNum → JSNum → Bool
  | .finite a, .finite b => decide (a = b)
  | .posInf, .posInf => true
  | .negInf, .negInf => true
  | _, _ => false

def jsIsNaN : JSNum → Bool
  | .nan => true
  | _ => false

/-- JS `+` on numbers (special-value rules; finite case exact). -/
def jsAdd : JSNum → JSNum → JSNum
  | .nan, _ => .nan
  | _, .nan => .nan
  | .finite a, .finite b => .finite (a + b)
  | .posInf, .negInf => .nan
  | .negInf, .posInf => .nan
  | .posInf, _ => .posInf
  | _, .posInf => .posInf
  | .negInf, _ => .negInf
  | _, .negInf => .negInf

/-- JS `*` on numbers (special-value rules; finite case exact). -/
def jsMul : JSNum → JSNum → JSNum
  | .nan, _ => .nan
  | _, .nan => .nan
  | .finite a, .finite b => .finite (a * b)
  | .finite a, .posInf => if a = 0 then .nan else if 0 < a then .posInf else .negInf
  | .posInf, .finite a => if a = 0 then .nan else if 0 < a then .posInf else .negInf
  | .finite a, .negInf => if a = 0 then .nan else if 0 < a then .negInf else .posInf
  | .negInf, .finite a => if a = 0 then .nan else if 0 < a then .negInf else .posInf
  | .posInf, .posInf => .posInf
  | .posInf, .negInf => .negInf
  | .negInf, .posInf => .negInf
  | .negInf, .negInf => .posInf

/-- JS `/` on numbers (division by zero yields an infinity or NaN, never an
error; negative zero is not modelled, so finite / infinite is plain 0). -/
def jsDiv : JSNum → JSNum → JSNum
  | .nan, _ => .nan
  | _, .nan => .nan
  | .finite a, .finite b =>
      if b = 0 then (if a = 0 then .nan else if 0 < a then .posInf else .negInf)
      else .finite (a / b)
  | .finite _, .posInf => .finite 0
  | .finite _, .negInf => .finite 0
  | .posInf, .finite b => if 0 ≤ b then .posInf else .negInf
  | .negInf, .finite b => if 0 ≤ b then .negInf else .posInf
  | .posInf, _ => .nan
  | .negInf, _ => .nan

/-- Truncation toward zero of a rational (the integer part JS obtains
before wrapping in `ToInt32`). -/
def jsTrunc (q : ℚ) : ℤ := if q < 0 then -(Rat.floor (-q)) else Rat.floor q

/-- The integer data types of Encoding.ts (`Encoding.IntDataType`). -/
inductive IntDataType where
  | int8
  | int16
  | int32
  | uint8
  | uint16
  | uint32
deriving DecidableEq, Repr

/-- The float data types of Encoding.ts (`Encoding.FloatDataType`). -/
inductive FloatDataType where
  | float32
  | float64
deriving DecidableEq, Repr

/-- Storing an integer into a JS typed array of the given element type:
the value wraps modulo 2^width, signed types into the signed range. -/
def wrapInt : IntDataType → ℤ → ℤ
  | .int8, v => (v + 2 ^ 7) % 2 ^ 8 - 2 ^ 7
  | .int16, v => (v + 2 ^ 15) % 2 ^ 16 - 2 ^ 15
  | .int32, v => (v + 2 ^ 31) % 2 ^ 32 - 2 ^ 31
  | .uint8, v => v % 2 ^ 8
  | .uint16, v => v % 2 ^ 16
  | .uint32, v => v % 2 ^ 32

/-- JS `x | 0` on a number: ToInt32 (truncate toward zero, then wrap into
the signed 32-bit range; NaN and the infinities give 0). -/
def jsToInt32 : JSNum → ℤ
  | .finite q => wrapInt .int32 (jsTrunc q)
  | _ => 0

/-- Encoding descriptors (Encoding.ts).  At runtime `kind` is a plain
string read from the deserialized container, so a descriptor whose kind
matches none of the seven recognized strings is representable; it is
modelled by the `unknown` constructor.  The ByteArray `type` field is the
numeric data-type code of Encoding.ts (Int8=1, Int16=2, Int32=3, Uint8=4,
Uint16=5, Uint32=6, Float32=32, Float64=33), kept as a raw number because
`decodeStep` dispatches on it with a default error case. -/
inductive Encoding where
  | byteArray (type : ℕ)
  | fixedPoint (factor : ℚ) (srcType : FloatDataType)
  | intervalQuantization (mn mx : ℚ) (numSteps : ℤ) (srcType : FloatDataType)
  | runLength (srcType : IntDataType) (srcSize : ℕ)
  | delta (origin : ℤ) (srcType : IntDataType)
  | integerPacking (byteCount : ℕ) (isUnsigned : Bool) (srcSize : ℕ)
  | stringArray (dataEncoding : List Encoding) (stringData : String)
      (offsetEncoding : List Encoding) (offsets : List ℕ)
  | unknown (kind : String)

/-- `EncodedData`: an encoding stack plus the raw byte buffer.  The buffer
is optional: the JS field can be absent (undefined/null, the falsy case
`wrapColumn` tests); an empty `Uint8Array` is `some []` and is truthy. -/
structure EncodedData where
  encoding : List Encoding
  data : Option (List ℕ)

structure EncodedColumn where
  name : String
  data : EncodedData
  mask : Option EncodedData

structure EncodedCategory where
  name : String
  rowCount : ℕ
  columns : List EncodedColumn

/-- The dynamic value flowing through `decodeStep`: a raw byte buffer
(`Uint8Array`), an integer typed array, a float typed array, the string
array produced by the StringArray decoder (entries may be null), or the
JS `undefined` that falls out of the dispatch switch on an unknown kind. -/
inductive DecodedSeq where
  | bytes (l : List ℕ)
  | ints (l : List ℤ) (type : IntDataType)
  | floats (l : List JSNum) (type : FloatDataType)
  | strs (l : List (Option String))
  | undef
deriving DecidableEq, Repr

/-- The errors the decoder can actually throw (part_001): the three
`Unsupported ...` messages.  There is no MalformedEncoding and no
UnknownEncodingKind error anywhere in the code. -/
inductive DecodeError where
  | unsupportedByteArrayType
  | unsupportedIntType
  | unsupportedFloatType
deriving DecidableEq, Repr

/-- Little-endian value of a byte group. -/
def bytesToNatLE (chunk : List ℕ) : ℕ :=
  chunk.foldr (fun b acc => b + 256 * acc) 0

/-- Split a byte list into groups of `k`.  The JS typed-array view
constructors require the buffer length to be an exact multiple of the
element width (otherwise they throw a RangeError); a trailing remainder
is dropped here, and no claim exercises a non-multiple length. -/
def chunkBytesAux (k : ℕ) (cur : List ℕ) : List ℕ → List (List ℕ)
  | [] => []
  | b :: rest =>
    if (cur ++ [b]).length = k then (cur ++ [b]) :: chunkBytesAux k [] rest
    else chunkBytesAux k (cur ++ [b]) rest

def chunkBytes (k : ℕ) (bs : List ℕ) : List (List ℕ) :=
  if k = 0 then [] else chunkBytesAux k [] bs

/-- Two's-complement reading of a `w`-bit little-endian value. -/
def toSigned (w : ℕ) (n : ℕ) : ℤ :=
  if n < 2 ^ (w - 1) then (n : ℤ) else (n : ℤ) - 2 ^ w

def int8Decode (bs : List ℕ) : List ℤ := bs.map (fun b => toSigned 8 b)
def int16Decode (bs : List ℕ) : List ℤ :=
  (chunkBytes 2 bs).map (fun c => toSigned 16 (bytesToNatLE c))
def uint16Decode (bs : List ℕ) : List ℤ :=
  (chunkBytes 2 bs).map (fun c => (bytesToNatLE c : ℤ))
def int32Decode (bs : List ℕ) : List ℤ :=
  (chunkBytes 4 bs).map (fun c => toSigned 32 (bytesToNatLE c))
def uint32Decode (bs : List ℕ) : List ℤ :=
  (chunkBytes 4 bs).map (fun c => (bytesToNatLE c : ℤ))

/-- IEEE 754 binary32 read from its 32-bit pattern, exact in `JSNum`. -/
def float32FromBits (n : ℕ) : JSNum :=
  let s : ℤ := if n / 2 ^ 31 % 2 = (1 : ℕ) then -1 else 1
  let e : ℕ := n / 2 ^ 23 % 2 ^ 8
  let m : ℕ := n % 2 ^ 23
  if e = 255 then (if m = 0 then (if s = 1 then .posInf else .negInf) else .nan)
  else if e = 0 then .finite (mkRat (s * (m : ℤ)) (2 ^ 149))
  else if e ≤ 150 then .finite (mkRat (s * ((2 ^ 23 + m : ℕ) : ℤ)) (2 ^ (150 - e)))
  else .finite (((s * ((2 ^ 23 + m : ℕ) : ℤ) * 2 ^ (e - 150) : ℤ) : ℚ))

/-- IEEE 754 binary64 read from its 64-bit pattern, exact in `JSNum`. -/
def float64FromBits (n : ℕ) : JSNum :=
  let s : ℤ := if n / 2 ^ 63 % 2 = (1 : ℕ) then -1 else 1
  let e : ℕ := n / 2 ^ 52 % 2 ^ 11
  let m : ℕ := n % 2 ^ 52
  if e = 2047 then (if m = 0 then (if s = 1 then .posInf else .negInf) else .nan)
  else if e = 0 then .finite (mkRat (s * (m : ℤ)) (2 ^ 1074))
  else if e ≤ 1075 then .finite (mkRat (s * ((2 ^ 52 + m : ℕ) : ℤ)) (2 ^ (1075 - e)))
  else .finite (((s * ((2 ^ 52 + m : ℕ) : ℤ) * 2 ^ (e - 1075) : ℤ) : ℚ))

def float32Decode (bs : List ℕ) : List JSNum :=
  (chunkBytes 4 bs).map (fun c => float32FromBits (bytesToNatLE c))
def float64Decode (bs : List ℕ) : List JSNum :=
  (chunkBytes 8 bs).map (fun c => float64FromBits (bytesToNatLE c))

/-- View of the current dynamic value as a list of integers, as the
integer transforms read it.  The transforms are only ever fed integer
typed arrays by well-formed pipelines; raw bytes read as their unsigned
values, float entries by ToInteger truncation, everything else as empty. -/
def seqAsInts : DecodedSeq → List ℤ
  | .bytes l => l.map (fun (b : ℕ) => (b : ℤ))
  | .ints l _ => l
  | .floats l _ => l.map (fun x => match x with | .finite q => jsTrunc q | _ => 0)
  | .strs _ => []
  | .undef => []

/-- FixedPoint decoder (part_001): `f = 1 / factor` precomputed once,
`out[i] = f * in[i]`.  Rounding of the finite products to the srcType
float width is not modelled. -/
def fixedPoint (factor : ℚ) (data : List ℤ) : List JSNum :=
  let f := jsDiv (.finite 1) (.finite factor)
  data.map (fun (x : ℤ) => jsMul f (.finite (x : ℚ)))

/-- IntervalQuantization decoder (part_001):
`delta = (max - min) / (numSteps - 1)`, `out[i] = min + delta * in[i]`.
There is no validation of `numSteps`; `numSteps = 1` divides by zero,
which in JS yields an infinity or NaN, not an error. -/
def intervalQuantization (mn mx : ℚ) (numSteps : ℤ) (data : List ℤ) : List JSNum :=
  let d := jsDiv (.finite (mx - mn)) (.finite ((numSteps : ℚ) - 1))
  data.map (fun (x : ℤ) => jsAdd (.finite mn) (jsMul d (.finite (x : ℚ))))

/-- The (value, length) pairs the RunLength loop reads at indices
(i, i+1).  An odd trailing element pairs with the JS `undefined`, whose
repeat loop `j < undefined` runs zero times, so it emits nothing. -/
def runLengthPairs : List ℤ → List (ℤ × ℤ)
  | v :: len :: rest => (v, len) :: runLengthPairs rest
  | _ => []

/-- The values the RunLength loop writes, in order: each value repeated
`length` times (`j < length` runs zero times for a non-positive length),
wrapped by the srcType typed-array store. -/
def runLengthEmitted (st : IntDataType) (data : List ℤ) : List ℤ :=
  (runLengthPairs data).flatMap (fun p => List.replicate p.2.toNat (wrapInt st p.1))

/-- RunLength decoder (part_001): the output array has length `srcSize`
and starts zeroed; sequential writes beyond `srcSize` are silently
dropped by the typed array, and positions never written stay 0.  No
length check is performed. -/
def runLength (st : IntDataType) (srcSize : ℕ) (data : List ℤ) : List ℤ :=
  let e := runLengthEmitted st data
  e.take srcSize ++ List.replicate (srcSize - e.length) 0

/-- The inner accumulation loop shared by `delta` below and by the
spec-side recurrence: each output is the wrapped sum of the input token
and the previously stored output. -/
def deltaLoop (st : IntDataType) : ℤ → List ℤ → List ℤ
  | _, [] => []
  | prev, x :: rest =>
    let o := wrapInt st (x + prev)
    o :: deltaLoop st o rest

/-- Delta decoder (part_001): `output[0] = data[0] + (origin | 0)` and
`output[i] = data[i] + output[i-1]`, every store wrapping in the srcType
typed array; empty input returns the empty output. -/
def delta (st : IntDataType) (origin : ℤ) (data : List ℤ) : List ℤ :=
  match data with
  | [] => []
  | d0 :: rest =>
    let o0 := wrapInt st (d0 + wrapInt .int32 origin)
    o0 :: deltaLoop st o0 rest

/-- Saturation token of signed integer packing: 0x7F for byteCount 1,
0x7FFF otherwise (the JS conditional treats every non-1 byteCount as 2). -/
def satUpper (byteCount : ℕ) : ℤ := if byteCount = 1 then 0x7F else 0x7FFF

def satLower (byteCount : ℕ) : ℤ := -(satUpper byteCount) - 1

/-- The emission loop of `integerPackingSigned` (part_001): accumulate
while the token equals the upper or lower saturation value, then add the
terminating token and emit; after an emission the accumulator restarts at
0 on the remaining input.  If the input ends inside a saturation run, the
JS code reads past the array (undefined), the sum becomes NaN, and the
Int32Array store turns that NaN into 0 — hence the `[0]` in the nil case. -/
def ipSignedGo (upper lower : ℤ) : ℤ → List ℤ → List ℤ
  | _, [] => [0]
  | value, t :: rest =>
    if t = upper ∨ t = lower then ipSignedGo upper lower (value + t) rest
    else (value + t) :: (if rest.isEmpty then [] else ipSignedGo upper lower 0 rest)

/-- Fitting the emitted values into the preallocated Int32Array of length
`srcSize`: each store wraps to signed 32 bits, excess emissions fall off
the end, missing positions stay 0. -/
def fitInt32 (srcSize : ℕ) (l : List ℤ) : List ℤ :=
  (List.range srcSize).map (fun j => wrapInt .int32 (l.getD j 0))

/-- Signed IntegerPacking decoder (part_001, `integerPackingSigned`). -/
def integerPackingSigned (byteCount : ℕ) (srcSize : ℕ) (data : List ℤ) : List ℤ :=
  let u := satUpper byteCount
  let lo := satLower byteCount
  fitInt32 srcSize (if data.isEmpty then [] else ipSignedGo u lo 0 data)

/-- Unsigned continuation token: 0xFF for byteCount 1, 0xFFFF otherwise. -/
def satUpperU (byteCount : ℕ) : ℤ := if byteCount = 1 then 0xFF else 0xFFFF

/-- The emission loop of `integerPackingUnsigned` (part_001): identical
structure with only the upper token continuing a run. -/
def ipUnsignedGo (upper : ℤ) : ℤ → List ℤ → List ℤ
  | _, [] => [0]
  | value, t :: rest =>
    if t = upper then ipUnsignedGo upper (value + t) rest
    else (value + t) :: (if rest.isEmpty then [] else ipUnsignedGo upper 0 rest)

/-- Unsigned IntegerPacking decoder (part_001, `integerPackingUnsigned`). -/
def integerPackingUnsigned (byteCount : ℕ) (srcSize : ℕ) (data : List ℤ) : List ℤ :=
  fitInt32 srcSize (if data.isEmpty then [] else ipUnsignedGo (satUpperU byteCount) 0 data)

/-- `integerPacking` (part_001): mode dispatch on `isUnsigned`. -/
def integerPacking (byteCount : ℕ) (isUnsigned : Bool) (srcSize : ℕ)
    (data : List ℤ) : List ℤ :=
  if isUnsigned then integerPackingUnsigned byteCount srcSize data
  else integerPackingSigned byteCount srcSize data

/-- JS `String.prototype.substring(a, b)`: both arguments are clamped to
[0, length] and swapped if out of order, then the slice is taken. -/
def substringJS (s : String) (a b : ℤ) : String :=
  let n : ℤ := s.length
  let a1 := (min (max a 0) n).toNat
  let b1 := (min (max b 0) n).toNat
  let lo := min a1 b1
  let hi := max a1 b1
  String.mk ((s.toList.drop lo).take (hi - lo))

/-- The per-index assembly loop of the StringArray decoder (part_001):
a negative index emits null, otherwise the slice
`stringData[offsets[i] .. offsets[i+1])`.  The memoization cache of the
source only avoids re-slicing for repeated indices and is observationally
identity, so it is not modelled.  Reading `offsets` past its end gives JS
`undefined`, which `substring` coerces to 0; `List.getD _ 0` matches. -/
def stringArrayAssemble (pool : String) (offsets : List ℤ)
    (indices : List ℤ) : List (Option String) :=
  indices.map (fun i =>
    if i < 0 then none
    else some (substringJS pool (offsets.getD i.toNat 0) (offsets.getD (i.toNat + 1) 0)))

mutual

/-- The loop of `decode` (part_001): the encoding list is walked from its
last element down to its first, each step feeding the previous current
value into `decodeStep`. -/
def decodeList : List Encoding → DecodedSeq → Except DecodeError DecodedSeq
  | [], cur => .ok cur
  | e :: rest, cur => do
    let inner ← decodeList rest cur
    decodeStep inner e
termination_by l _ => sizeOf l

/-- `Decoder.decodeStep` (part_001): dispatch on the encoding kind.  The
ByteArray case dispatches on the numeric type code with a default throw;
the switch over the kind has no default case, so an unrecognized kind
falls through and the function returns JS `undefined`. -/
def decodeStep : DecodedSeq → Encoding → Except DecodeError DecodedSeq
  | data, .byteArray t =>
    match data with
    | .bytes bs =>
      if t = 4 then .ok (.bytes bs)
      else if t = 1 then .ok (.ints (int8Decode bs) .int8)
      else if t = 2 then .ok (.ints (int16Decode bs) .int16)
      else if t = 5 then .ok (.ints (uint16Decode bs) .uint16)
      else if t = 3 then .ok (.ints (int32Decode bs) .int32)
      else if t = 6 then .ok (.ints (uint32Decode bs) .uint32)
      else if t = 32 then .ok (.floats (float32Decode bs) .float32)
      else if t = 33 then .ok (.floats (float64Decode bs) .float64)
      else .error .unsupportedByteArrayType
    | d =>
      if t = 4 then .ok d
      else if t = 1 ∨ t = 2 ∨ t = 3 ∨ t = 5 ∨ t = 6 ∨ t = 32 ∨ t = 33 then .ok d
      else .error .unsupportedByteArrayType
  | data, .fixedPoint factor st =>
    .ok (.floats (fixedPoint factor (seqAsInts data)) st)
  | data, .intervalQuantization mn mx numSteps st =>
    .ok (.floats (intervalQuantization mn mx numSteps (seqAsInts data)) st)
  | data, .runLength st ss =>
    .ok (.ints (runLength st ss (seqAsInts data)) st)
  | data, .delta origin st =>
    .ok (.ints (delta st origin (seqAsInts data)) st)
  | data, .integerPacking bc isU ss =>
    .ok (.ints (integerPacking bc isU ss (seqAsInts data)) .int32)
  | data, .stringArray de sd oe off => do
    let offsetsD ← decodeList oe (.bytes off)
    let indicesD ← decodeList de data
    .ok (.strs (stringArrayAssemble sd (seqAsInts offsetsD) (seqAsInts indicesD)))
  | _, .unknown _ => .ok .undef
termination_by _ e => sizeOf e

end

/-- `decode` (part_001): start from the raw byte buffer (an absent buffer
is JS `undefined`) and fold the encoding stack in reverse order. -/
def decode (d : EncodedData) : Except DecodeError DecodedSeq :=
  decodeList d.encoding (match d.data with | some bs => .bytes bs | none => .undef)

/-- Value of a nonempty all-digit character run, base 10. -/
def digitsVal (cs : List Char) : Option ℕ :=
  if cs ≠ [] ∧ cs.all Char.isDigit then
    some (cs.foldl (fun a c => 10 * a + (c.toNat - 48)) 0)
  else none

/-- Modelled from the spec: `CIFTools.Utils.FastNumberParsers.parseInt`
is not under src/ (only its import in the column layer is).  Per the spec
it performs standard base-10 integer parsing over the slice and returns 0
for empty or unparsable input, never throwing. -/
def fastParseInt (s : String) : ℤ :=
  match s.toList with
  | [] => 0
  | c :: rest =>
    if c = Char.ofNat 45 then -((digitsVal rest).getD 0 : ℤ)
    else ((digitsVal (c :: rest)).getD 0 : ℤ)

/-- Modelled from the spec: `CIFTools.Utils.FastNumberParsers.parseFloat`
is not under src/.  Per the spec it parses a base-10 decimal (optional
sign, integer digits, optional fraction) and returns 0 for empty or
unparsable input.  No settled claim depends on its value on any input. -/
def fastParseFloat (s : String) : JSNum :=
  let core : List Char → ℚ := fun cs =>
    let ip := cs.takeWhile (fun c => c ≠ Char.ofNat 46)
    let rest := cs.dropWhile (fun c => c ≠ Char.ofNat 46)
    match digitsVal ip with
    | none => 0
    | some i =>
      match rest with
      | [] => (i : ℚ)
      | _ :: frac =>
        match digitsVal frac with
        | some f => (i : ℚ) + (f : ℚ) / (10 : ℚ) ^ frac.length
        | none => 0
  match s.toList with
  | [] => .finite 0
  | c :: rest =>
    if c = Char.ofNat 45 then .finite (-(core rest)) else .finite (core (c :: rest))

/-- Rendering of a stored number by the JS template string of the column
layer.  Only its non-nullness is consulted by any claim; the exact digit
formatting of JS is not modelled (a rational is printed as num/den). -/
def jsNumToString : JSNum → String
  | .finite q => toString q
  | .posInf => "Infinity"
  | .negInf => "-Infinity"
  | .nan => "NaN"

/-- The decoded column variants of the view layer (part_000): the four
materialized classes plus the `CIFTools.UndefinedColumn` sentinel that
`getColumn` and `wrapColumn` return for unknown names or absent data. -/
inductive Column where
  | numeric (data : List JSNum)
  | maskedNumeric (data : List JSNum) (mask : List ℕ)
  | strCol (data : List (Option String))
  | maskedStrCol (data : List (Option String)) (mask : List ℕ)
  | undefinedColumn
deriving DecidableEq, Repr

/-- `isDefined`: true on the four materialized classes, false only on the
sentinel (the sentinel flag is modelled from the spec, the class flags
are in part_000). -/
def Column.isDefined : Column → Bool
  | .undefinedColumn => false
  | _ => true

/-- `getValuePresence` (part_000): the raw mask byte for masked columns
(0 = Present), always Present for unmasked ones; the sentinel answer is
modelled from the spec (neutral default Present).  Rows are read with
default 0; every claim keeps the row inside the mask. -/
def Column.getValuePresence : Column → ℕ → ℕ
  | .numeric _, _ => 0
  | .maskedNumeric _ m, r => m.getD r 0
  | .strCol _, _ => 0
  | .maskedStrCol _ m, r => m.getD r 0
  | .undefinedColumn, _ => 0

/-- `getString` (part_000): numeric values render through the template
string (never null); masked variants return null when the mask byte is
not Present; a string column returns the stored entry, which is itself
null when the StringArray decoder emitted null for that row.  The
sentinel's null is modelled from the spec (neutral default). -/
def Column.getString : Column → ℕ → Option String
  | .numeric d, r => some (jsNumToString (d.getD r .nan))
  | .maskedNumeric d m, r =>
    if m.getD r 0 = 0 then some (jsNumToString (d.getD r .nan)) else none
  | .strCol d, r => d.getD r none
  | .maskedStrCol d m, r => if m.getD r 0 = 0 then d.getD r none else none
  | .undefinedColumn, _ => none

/-- `getInteger` (part_000).  NumericColumn applies `| 0` (ToInt32);
MaskedNumericColumn returns the raw stored number unconverted when the
row is Present, else 0; StringColumn parses the stored string (the JS
code reads `v.length`, so a null entry would throw there — the model
parses the empty string instead, and no claim touches that corner);
MaskedStringColumn parses `v || ''`, which maps null to the empty string.
The sentinel's 0 is modelled from the spec. -/
def Column.getInteger : Column → ℕ → JSNum
  | .numeric d, r => .finite ((jsToInt32 (d.getD r .nan) : ℤ) : ℚ)
  | .maskedNumeric d m, r => if m.getD r 0 = 0 then d.getD r .nan else .finite 0
  | .strCol d, r => .finite ((fastParseInt ((d.getD r none).getD "") : ℤ) : ℚ)
  | .maskedStrCol d m, r =>
    if m.getD r 0 = 0 then .finite ((fastParseInt ((d.getD r none).getD "") : ℤ) : ℚ)
    else .finite 0
  | .undefinedColumn, _ => .finite 0

/-- `getFloat` (part_000): `1.0 * x` is the identity on every JS number
here; masked variants return 0 when not Present; string variants parse.
The sentinel's 0 is modelled from the spec. -/
def Column.getFloat : Column → ℕ → JSNum
  | .numeric d, r => d.getD r .nan
  | .maskedNumeric d m, r => if m.getD r 0 = 0 then d.getD r .nan else .finite 0
  | .strCol d, r => fastParseFloat ((d.getD r none).getD "")
  | .maskedStrCol d m, r =>
    if m.getD r 0 = 0 then fastParseFloat ((d.getD r none).getD "") else .finite 0
  | .undefinedColumn, _ => .finite 0

/-- `areValuesEqual` (part_000): strict JS equality of the two stored
values; the mask is never consulted.  For numeric stores that is number
`===` (false on NaN even against itself); for string stores it is value
equality of strings with null equal only to null.  The sentinel is not
one of the four variants the claims quantify over; its answer here is a
neutral true. -/
def Column.areValuesEqual : Column → ℕ → ℕ → Bool
  | .numeric d, rA, rB => jsNumEq (d.getD rA .nan) (d.getD rB .nan)
  | .maskedNumeric d _, rA, rB => jsNumEq (d.getD rA .nan) (d.getD rB .nan)
  | .strCol d, rA, rB => decide (d.getD rA none = d.getD rB none)
  | .maskedStrCol d _, rA, rB => decide (d.getD rA none = d.getD rB none)
  | .undefinedColumn, _, _ => true

/-- The numeric-store test of `wrapColumn` (part_000):
`data.buffer && data.byteLength && data.BYTES_PER_ELEMENT`.  Typed arrays
have all three, but `byteLength` is 0 — falsy — when the array is empty,
so an empty typed array is classified as a string store; plain JS arrays
(the StringArray output) and `undefined` fail the test. -/
def isNumericSeq : DecodedSeq → Bool
  | .bytes l => !l.isEmpty
  | .ints l _ => !l.isEmpty
  | .floats l _ => !l.isEmpty
  | .strs _ => false
  | .undef => false

/-- The stored numbers a numeric column is built over. -/
def toNums : DecodedSeq → List JSNum
  | .bytes l => l.map (fun (b : ℕ) => .finite ((b : ℕ) : ℚ))
  | .ints l _ => l.map (fun (i : ℤ) => .finite ((i : ℤ) : ℚ))
  | .floats l _ => l
  | _ => []

/-- The stored strings a string column is built over (non-string data
reaching the string branch is an empty store; only an empty typed array
can reach it and no claim does). -/
def toStrs : DecodedSeq → List (Option String)
  | .strs l => l
  | _ => []

/-- The decoded mask as the typed-array bytes `mask[row]` reads.  A
well-formed mask pipeline ends in a Uint8 ByteArray; integer arrays of
other widths index the same way.  `undefined` (unknown-kind pipeline) is
falsy, so `mask ? ... : ...` falls back to the unmasked variants. -/
def toMask : DecodedSeq → Option (List ℕ)
  | .undef => none
  | .bytes l => some l
  | .ints l _ => some (l.map Int.toNat)
  | .floats _ _ => some []
  | .strs _ => some []

/-- `wrapColumn` (part_000): an absent data buffer short-circuits to the
UndefinedColumn sentinel before any decoding; otherwise the data (and the
mask, when the column has one) are decoded and the variant is picked by
the numeric-store test and the mask's truthiness. -/
def wrapColumn (c : EncodedColumn) : Except DecodeError Column :=
  match c.data.data with
  | none => .ok .undefinedColumn
  | some _ => do
    let d ← decode c.data
    let m ← (match c.mask with
      | none => pure (none : Option (List ℕ))
      | some me => do
        let md ← decode me
        pure (toMask md))
    if isNumericSeq d then
      .ok (match m with
        | some mk => .maskedNumeric (toNums d) mk
        | none => .numeric (toNums d))
    else
      .ok (match m with
        | some mk => .maskedStrCol (toStrs d) mk
        | none => .strCol (toStrs d))

/-- The `Map.set` build of `Category`: for a repeated name the last
declaration wins the lookup. -/
def lookupColumn (cols : List EncodedColumn) (n : String) : Option EncodedColumn :=
  (cols.filter (fun c => c.name == n)).getLast?

/-- `Category.getColumn` (part_000): a known name goes through
`wrapColumn`, an unknown one resolves to the UndefinedColumn sentinel —
never an error. -/
def getColumn (cat : EncodedCategory) (n : String) : Except DecodeError Column :=
  match lookupColumn cat.columns n with
  | some c => wrapColumn c
  | none => .ok .undefinedColumn

/-- One input group of the signed integer-packing walk: a run of
saturation tokens followed by the single terminating token; the claimed
walk emits one accumulated value per such group. -/
def blockTokens (b : List ℤ × ℤ) : List ℤ := b.1 ++ [b.2]

/-- The recurrence of §4.2 Delta as the spec words it: `out[0] = in[0] +
origin`, `out[i] = in[i] + out[i-1]`, each sum wrapping in the declared
srcType; stated as a definition to compare with the source `delta`. -/
def deltaSpec (st : IntDataType) (origin : ℤ) (data : List ℤ) : List ℤ :=
  match data with
  | [] => []
  | d0 :: rest =>
    let o0 := wrapInt st (d0 + origin)
    o0 :: deltaLoop st o0 rest

theorem deltaLoop_length (st : IntDataType) (prev : ℤ) (l : List ℤ) :
    (deltaLoop st prev l).length = l.length := by
  induction l generalizing prev with
  | nil => rfl
  | cons x rest ih => simp [deltaLoop, ih]

theorem wrapInt_congr (st : IntDataType) (a b : ℤ)
    (h : a % 2 ^ 32 = b % 2 ^ 32) : wrapInt st a = wrapInt st b := by
  cases st <;> simp only [wrapInt] <;> omega

/-- Claim C2: for every signed-integer input sequence and every origin the
Delta decoder returns an output of the input's length satisfying
`out[0] = in[0] + origin`, `out[i] = in[i] + out[i-1]` with arithmetic
wrapping in the declared srcType, the empty input giving the empty
output; and origin 10 over Int32 input [1, 2, 3, -1] decodes to
[11, 13, 16, 15]. -/
theorem delta_matches_spec :
    (∀ (st : IntDataType) (origin : ℤ) (data : List ℤ),
        delta st origin data = deltaSpec st origin data ∧
        (delta st origin data).length = data.length) ∧
    delta .int32 10 [1, 2, 3, -1] = [11, 13, 16, 15] := by
  refine ⟨fun st origin data => ?_, by decide⟩
  cases data with
  | nil => exact ⟨rfl, rfl⟩
  | cons d0 rest =>
    have h0 : wrapInt st (d0 + wrapInt .int32 origin) = wrapInt st (d0 + origin) := by
      apply wrapInt_congr
      simp only [wrapInt]
      omega
    constructor
    · simp only [delta, deltaSpec, h0]
    · simp [delta, deltaLoop_length]

/-- Claim C3 counterexample: a RunLength decode whose runs emit 3 values
against srcSize 5 does not fail; it succeeds, zero-filling the tail. -/
theorem runLength_short_is_ok :
    decodeStep (.ints [7, 3] .int32) (.runLength .int32 5) =
      Except.ok (.ints [7, 7, 7, 0, 0] .int32) := by
  have h : runLength .int32 5 [7, 3] = [7, 7, 7, 0, 0] := by decide
  simp [decodeStep, seqAsInts, h]

/-- Claim C3 amended: a RunLength total/srcSize mismatch is not detected
and raises no error: the step always succeeds, the output always has
length srcSize (excess emissions dropped, missing positions left 0), and
when the emitted total does equal srcSize the output is exactly the
expanded run sequence. -/
theorem runLength_never_fails (st : IntDataType) (ss : ℕ) (d : List ℤ) :
    decodeStep (.ints d .int32) (.runLength st ss) =
      Except.ok (.ints (runLength st ss d) st) ∧
    (runLength st ss d).length = ss ∧
    ((runLengthEmitted st d).length = ss → runLength st ss d = runLengthEmitted st d) := by
  refine ⟨by simp [decodeStep, seqAsInts], ?_, fun h => ?_⟩
  · simp only [runLength, List.length_append, List.length_take, List.length_replicate]
    omega
  · simp [runLength, h, List.take_of_length_le (le_of_eq h)]

theorem runLength_never_fails_witness :
    (runLengthEmitted .int32 [7, 3, 2, 2]).length = 5 ∧
    runLength .int32 5 [7, 3, 2, 2] = runLengthEmitted .int32 [7, 3, 2, 2] :=
  ⟨by decide, (runLength_never_fails .int32 5 [7, 3, 2, 2]).2.2 (by decide)⟩

/-- Claim C4 counterexample: an IntervalQuantization decode with
numSteps = 1 does not fail with any error; the step divides by zero,
which under JS arithmetic produces Infinity, and `min + Infinity * 0`
evaluates to NaN, so the pipeline succeeds with a NaN sample. -/
theorem iq_numSteps_one_is_ok :
    decode { encoding := [.intervalQuantization 0 1 1 .float64, .byteArray 3],
             data := some [0, 0, 0, 0] } =
      Except.ok (.floats [.nan] .float64) := by
  have h32 : decodeStep (DecodedSeq.bytes [0, 0, 0, 0]) (Encoding.byteArray 3) =
      Except.ok (.ints [0] .int32) := by
    have h : int32Decode [0, 0, 0, 0] = [0] := by decide
    simp [decodeStep, h]
  have hiq : intervalQuantization 0 1 1 [0] = [.nan] := by
    simp [intervalQuantization, jsDiv, jsMul, jsAdd]
  simp [decode, decodeList, h32, decodeStep, seqAsInts, hiq, Bind.bind, Except.bind]

/-- Claim C4 amended: the IntervalQuantization decoder performs no
validation of numSteps; with numSteps = 1 (or any value) the step
succeeds, returning one sample per input value computed with JS
division-by-zero semantics instead of raising MalformedEncoding. -/
theorem iq_never_fails (mn mx : ℚ) (numSteps : ℤ) (st : FloatDataType) (d : List ℤ) :
    decodeStep (.ints d .int32) (.intervalQuantization mn mx numSteps st) =
      Except.ok (.floats (intervalQuantization mn mx numSteps d) st) ∧
    (intervalQuantization mn mx numSteps d).length = d.length := by
  exact ⟨by simp [decodeStep, seqAsInts], by simp [intervalQuantization]⟩

/-- Claim C5 counterexample: a descriptor with an unrecognized kind does
not make the pipeline step fail: the dispatch switch has no default case,
so the step returns JS undefined as a success. -/
theorem unknown_kind_is_ok :
    decodeStep (.bytes [0]) (.unknown "FancyEncoding") = Except.ok .undef := by
  simp [decodeStep]

/-- Claim C5 amended: for every input value and every descriptor whose
kind is none of the recognized ones, the pipeline decode step returns JS
undefined without raising any error (no UnknownEncodingKind error exists
in the decoder; its error type has only the three Unsupported variants). -/
theorem unknown_kind_returns_undef (d : DecodedSeq) (k : String) :
    decodeStep d (.unknown k) = Except.ok .undef := by
  cases d <;> simp [decodeStep]

/-- Claim C6 counterexample: a masked string column whose mask byte is
Present over a stored null (the StringArray decoder emits null for a
negative index) returns null from getString at a row whose presence is
Present, so the claimed equivalence fails. -/
theorem masked_getString_null_at_present_row :
    ¬ (Column.getString (.maskedStrCol [some "foo", none] [0, 0]) 1 = none ↔
       Column.getValuePresence (.maskedStrCol [some "foo", none] [0, 0]) 1 ≠ 0) := by
  decide

/-- Claim C6 amended: for a MaskedNumericColumn, getString(r) is null iff
the presence is not Present; for a MaskedStringColumn, getString(r) is
null iff the presence is not Present or the stored string itself is null
(which the StringArray decoder produces for a negative index). -/
theorem masked_getString_null_iff :
    (∀ (d : List JSNum) (m : List ℕ) (r : ℕ), r < m.length →
      (Column.getString (.maskedNumeric d m) r = none ↔
        Column.getValuePresence (.maskedNumeric d m) r ≠ 0)) ∧
    (∀ (d : List (Option String)) (m : List ℕ) (r : ℕ), r < m.length →
      (Column.getString (.maskedStrCol d m) r = none ↔
        (Column.getValuePresence (.maskedStrCol d m) r ≠ 0 ∨ d.getD r none = none))) := by
  constructor
  · intro d m r _
    simp only [Column.getString, Column.getValuePresence]
    by_cases h : m.getD r 0 = 0
    · rw [if_pos h]
      exact ⟨fun hc => absurd hc (by simp), fun hne => absurd h hne⟩
    · rw [if_neg h]
      exact iff_of_true rfl h
  · intro d m r _
    simp only [Column.getString, Column.getValuePresence]
    by_cases h : m.getD r 0 = 0
    · rw [if_pos h]
      refine ⟨fun hx => Or.inr hx, fun hx => ?_⟩
      rcases hx with hx | hx
      · exact absurd h hx
      · exact hx
    · rw [if_neg h]
      exact iff_of_true rfl (Or.inl h)

theorem masked_getString_null_iff_witness :
    (0 < ([1] : List ℕ).length ∧
      (Column.getString (.maskedNumeric [JSNum.finite 5] [1]) 0 = none ↔
        Column.getValuePresence (.maskedNumeric [JSNum.finite 5] [1]) 0 ≠ 0)) ∧
    (0 < ([0] : List ℕ).length ∧
      (Column.getString (.maskedStrCol [some "foo"] [0]) 0 = none ↔
        (Column.getValuePresence (.maskedStrCol [some "foo"] [0]) 0 ≠ 0 ∨
         ([some "foo"] : List (Option String)).getD 0 none = none))) :=
  ⟨⟨by decide, masked_getString_null_iff.1 [JSNum.finite 5] [1] 0 (by decide)⟩,
   ⟨by decide, masked_getString_null_iff.2 [some "foo"] [0] 0 (by decide)⟩⟩

/-- Claim C7 counterexample: a masked numeric column storing 1.5 at a
Present row returns the raw 1.5 from getInteger — not the claimed
truncation toward zero (whose value, jsTrunc, is 1), and not an integer
at all. -/
theorem maskedNumeric_getInteger_not_truncated :
    Column.getInteger (.maskedNumeric [JSNum.finite (mkRat 3 2)] [0]) 0 =
      JSNum.finite (mkRat 3 2) ∧
    jsTrunc (mkRat 3 2) = 1 ∧
    JSNum.finite (mkRat 3 2) ≠ JSNum.finite 1 := by
  refine ⟨by decide, by decide, by decide⟩

/-- Claim C7 amended: getInteger returns, for an unmasked numeric store,
the stored value converted by JS `| 0` (truncation toward zero followed
by a wrap into signed 32 bits); for a masked numeric store, the raw
stored value unconverted when the row is Present and 0 otherwise; for a
string store, the fast integer parser applied to the stored string (the
masked variant parses the empty string for a stored null); and 0 for
every absent row. -/
theorem getInteger_cases :
    (∀ (d : List JSNum) (r : ℕ),
      Column.getInteger (.numeric d) r = .finite ((jsToInt32 (d.getD r .nan) : ℤ) : ℚ)) ∧
    (∀ (d : List JSNum) (m : List ℕ) (r : ℕ), m.getD r 0 = 0 →
      Column.getInteger (.maskedNumeric d m) r = d.getD r .nan) ∧
    (∀ (d : List JSNum) (m : List ℕ) (r : ℕ), m.getD r 0 ≠ 0 →
      Column.getInteger (.maskedNumeric d m) r = .finite 0) ∧
    (∀ (d : List (Option String)) (r : ℕ) (s : String), d.getD r none = some s →
      Column.getInteger (.strCol d) r = .finite ((fastParseInt s : ℤ) : ℚ)) ∧
    (∀ (d : List (Option String)) (m : List ℕ) (r : ℕ), m.getD r 0 ≠ 0 →
      Column.getInteger (.maskedStrCol d m) r = .finite 0) ∧
    (∀ (d : List (Option String)) (m : List ℕ) (r : ℕ), m.getD r 0 = 0 →
      Column.getInteger (.maskedStrCol d m) r =
        .finite ((fastParseInt ((d.getD r none).getD "") : ℤ) : ℚ)) := by
  refine ⟨fun d r => rfl, fun d m r h => ?_, fun d m r h => ?_,
    fun d r s h => ?_, fun d m r h => ?_, fun d m r h => ?_⟩
  · simp only [Column.getInteger]
    rw [if_pos h]
  · simp only [Column.getInteger]
    rw [if_neg h]
  · simp only [Column.getInteger]
    rw [h]
    rfl
  · simp only [Column.getInteger]
    rw [if_neg h]
  · simp only [Column.getInteger]
    rw [if_pos h]

theorem getInteger_cases_witness :
    (([0] : List ℕ).getD 0 0 = 0 ∧
      Column.getInteger (.maskedNumeric [JSNum.finite (mkRat 3 2)] [0]) 0 =
        ([JSNum.finite (mkRat 3 2)] : List JSNum).getD 0 .nan) ∧
    (([some "42"] : List (Option String)).getD 0 none = some "42" ∧
      Column.getInteger (.strCol [some "42"]) 0 = .finite ((fastParseInt "42" : ℤ) : ℚ)) :=
  ⟨⟨by decide, getInteger_cases.2.1 [JSNum.finite (mkRat 3 2)] [0] 0 (by decide)⟩,
   ⟨by decide, getInteger_cases.2.2.2.1 [some "42"] 0 "42" (by decide)⟩⟩

theorem jsNumEq_self (x : JSNum) (h : jsIsNaN x = false) : jsNumEq x x = true := by
  cases x <;> simp [jsNumEq] <;> simp [jsIsNaN] at h

/-- Claim C8 counterexample: a numeric column holding NaN (which Float32
or Float64 ByteArray decoding can produce) answers false to
areValuesEqual(0, 0), because JS NaN === NaN is false. -/
theorem areValuesEqual_nan_not_reflexive :
    Column.areValuesEqual (.numeric [JSNum.nan]) 0 0 = false := by
  decide

/-- Claim C8 amended: areValuesEqual(r, r) is true for every row of a
string-backed column, and for every row of a numeric-backed column whose
stored value is not NaN; a NaN row compares unequal to itself under the
JS strict equality the code uses. -/
theorem areValuesEqual_diag :
    (∀ (d : List JSNum) (r : ℕ), jsIsNaN (d.getD r .nan) = false →
      Column.areValuesEqual (.numeric d) r r = true) ∧
    (∀ (d : List JSNum) (m : List ℕ) (r : ℕ), jsIsNaN (d.getD r .nan) = false →
      Column.areValuesEqual (.maskedNumeric d m) r r = true) ∧
    (∀ (d : List (Option String)) (r : ℕ),
      Column.areValuesEqual (.strCol d) r r = true) ∧
    (∀ (d : List (Option String)) (m : List ℕ) (r : ℕ),
      Column.areValuesEqual (.maskedStrCol d m) r r = true) := by
  refine ⟨fun d r h => ?_, fun d m r h => ?_, fun d r => ?_, fun d m r => ?_⟩
  · exact jsNumEq_self _ h
  · exact jsNumEq_self _ h
  · simp [Column.areValuesEqual]
  · simp [Column.areValuesEqual]

theorem areValuesEqual_diag_witness :
    (jsIsNaN (([JSNum.finite 5] : List JSNum).getD 0 .nan) = false ∧
      Column.areValuesEqual (.numeric [JSNum.finite 5]) 0 0 = true) ∧
    Column.areValuesEqual (.strCol [some "x"]) 0 0 = true :=
  ⟨⟨by decide, areValuesEqual_diag.1 [JSNum.finite 5] 0 (by decide)⟩,
   areValuesEqual_diag.2.2.1 [some "x"] 0⟩

/-- Claim C9 counterexample: a category can answer a KNOWN column name
with the UndefinedColumn sentinel: when the encoded column's data record
carries no byte buffer, wrapColumn short-circuits to the sentinel, whose
isDefined is false — contradicting the claim that every known name
yields a defined column. -/
theorem known_name_can_be_undefined :
    lookupColumn [⟨"a", ⟨[], none⟩, none⟩] "a" = some ⟨"a", ⟨[], none⟩, none⟩ ∧
    getColumn ⟨"c", 1, [⟨"a", ⟨[], none⟩, none⟩]⟩ "a" = Except.ok Column.undefinedColumn ∧
    Column.isDefined Column.undefinedColumn = false := by
  exact ⟨rfl, rfl, rfl⟩

/-- Claim C9 amended: getColumn never fails on an unknown name — it
returns the UndefinedColumn sentinel, whose isDefined is false and whose
getters return the neutral defaults (null string, 0 integer, 0 float,
Present); and every column that wrapColumn actually materializes (which
requires the data record to carry a byte buffer) has isDefined true.  A
known name whose data record carries no buffer yields the sentinel with
isDefined false. -/
theorem getColumn_sentinel_and_defined :
    (∀ (cat : EncodedCategory) (n : String), lookupColumn cat.columns n = none →
      getColumn cat n = Except.ok Column.undefinedColumn) ∧
    (∀ r : ℕ, Column.getString Column.undefinedColumn r = none ∧
      Column.getInteger Column.undefinedColumn r = .finite 0 ∧
      Column.getFloat Column.undefinedColumn r = .finite 0 ∧
      Column.getValuePresence Column.undefinedColumn r = 0) ∧
    Column.isDefined Column.undefinedColumn = false ∧
    (∀ (c : EncodedColumn) (bs : List ℕ) (col : Column),
      c.data.data = some bs → wrapColumn c = Except.ok col →
      col ≠ Column.undefinedColumn ∧ Column.isDefined col = true) := by
  refine ⟨fun cat n h => ?_, fun r => ⟨rfl, rfl, rfl, rfl⟩, rfl,
    fun c bs col hd hw => ?_⟩
  · simp [getColumn, h]
  · rcases hdec : decode c.data with e | d
    · simp [wrapColumn, hd, hdec, Bind.bind, Except.bind] at hw
    · rcases hm : c.mask with _ | me
      · simp only [wrapColumn, hd, hdec, hm, Bind.bind, Except.bind,
          pure, Except.pure] at hw
        split at hw <;> (cases hw; exact ⟨by simp, rfl⟩)
      · rcases hdm : decode me with e2 | md
        · simp [wrapColumn, hd, hdec, hm, hdm, Bind.bind, Except.bind] at hw
        · simp only [wrapColumn, hd, hdec, hm, hdm, Bind.bind, Except.bind,
            pure, Except.pure] at hw
          split at hw <;> split at hw <;> (cases hw; exact ⟨by simp, rfl⟩)

theorem getColumn_sentinel_and_defined_witness :
    lookupColumn ([] : List EncodedColumn) "nope" = none ∧
    getColumn ⟨"empty", 0, []⟩ "nope" = Except.ok Column.undefinedColumn :=
  ⟨rfl, getColumn_sentinel_and_defined.1 ⟨"empty", 0, []⟩ "nope" rfl⟩

/-- Claim C10: a known column name whose data record carries no byte
buffer resolves to the UndefinedColumn sentinel (isDefined false) without
decoding and without error: `wrapColumn` tests the buffer's truthiness
before calling `decode`. -/
theorem absent_data_gives_sentinel (cat : EncodedCategory) (n : String)
    (c : EncodedColumn) (hfind : lookupColumn cat.columns n = some c)
    (hdata : c.data.data = none) :
    getColumn cat n = Except.ok Column.undefinedColumn ∧
    Column.isDefined Column.undefinedColumn = false := by
  refine ⟨?_, rfl⟩
  simp [getColumn, hfind, wrapColumn, hdata]

/-- Reachability: a numeric column storing NaN is produced by an actual
pipeline — a Float64 ByteArray decode of the NaN bit pattern wrapped by
`wrapColumn` — so NaN-backed rows are not a hypothetical. -/
theorem nan_numeric_column_reachable :
    wrapColumn ⟨"x", ⟨[.byteArray 33], some [0, 0, 0, 0, 0, 0, 0xF8, 0x7F]⟩, none⟩ =
      Except.ok (Column.numeric [JSNum.nan]) := by
  have hf : float64Decode [0, 0, 0, 0, 0, 0, 0xF8, 0x7F] = [.nan] := by decide
  have hdec : decode ⟨[.byteArray 33], some [0, 0, 0, 0, 0, 0, 0xF8, 0x7F]⟩ =
      Except.ok (.floats [.nan] .float64) := by
    simp [decode, decodeList, decodeStep, hf, Bind.bind, Except.bind]
  simp [wrapColumn, hdec, Bind.bind, Except.bind, pure, Except.pure,
    isNumericSeq, toNums]

/-- Reachability: a masked numeric column storing the non-integer 1.5 at
a Present row is produced by a Float64 ByteArray decode of 1.5 together
with an all-zero Uint8 mask. -/
theorem fractional_masked_column_reachable :
    wrapColumn ⟨"y", ⟨[.byteArray 33], some [0, 0, 0, 0, 0, 0, 0xF8, 0x3F]⟩,
        some ⟨[.byteArray 4], some [0]⟩⟩ =
      Except.ok (Column.maskedNumeric [JSNum.finite (mkRat 3 2)] [0]) := by
  have hf : float64Decode [0, 0, 0, 0, 0, 0, 0xF8, 0x3F] = [.finite (mkRat 3 2)] := by
    decide
  have hdec : decode ⟨[.byteArray 33], some [0, 0, 0, 0, 0, 0, 0xF8, 0x3F]⟩ =
      Except.ok (.floats [.finite (mkRat 3 2)] .float64) := by
    simp [decode, decodeList, decodeStep, hf, Bind.bind, Except.bind]
  have hm : decode ⟨[.byteArray 4], some [0]⟩ = Except.ok (.bytes [0]) := by
    simp [decode, decodeList, decodeStep, Bind.bind, Except.bind]
  simp [wrapColumn, hdec, hm, Bind.bind, Except.bind, pure, Except.pure,
    isNumericSeq, toNums, toMask]

/-- Reachability: a masked string column that stores null at a row whose
mask byte is Present is produced by a StringArray decode whose index
sequence contains a negative entry, under an all-zero mask. -/
theorem null_at_present_column_reachable :
    wrapColumn ⟨"z",
        ⟨[.stringArray [.byteArray 1] "foobar" [.byteArray 4] [0, 3, 6]],
          some [0, 255]⟩,
        some ⟨[.byteArray 4], some [0, 0]⟩⟩ =
      Except.ok (Column.maskedStrCol [some "foo", none] [0, 0]) := by
  have hi : int8Decode [0, 255] = [0, -1] := by decide
  have ha : stringArrayAssemble "foobar" (seqAsInts (.bytes [0, 3, 6]))
      (seqAsInts (.ints [0, -1] .int8)) = [some "foo", none] := by decide
  have hdec : decode ⟨[.stringArray [.byteArray 1] "foobar" [.byteArray 4] [0, 3, 6]],
      some [0, 255]⟩ = Except.ok (.strs [some "foo", none]) := by
    simp [decode, decodeList, decodeStep, hi, ha, Bind.bind, Except.bind]
  have hm : decode ⟨[.byteArray 4], some [0, 0]⟩ = Except.ok (.bytes [0, 0]) := by
    simp [decode, decodeList, decodeStep, Bind.bind, Except.bind]
  simp [wrapColumn, hdec, hm, Bind.bind, Except.bind, pure, Except.pure,
    isNumericSeq, toStrs, toMask]

theorem ipSignedGo_block (u lo : ℤ) (run : List ℤ) (t : ℤ) (rest : List ℤ) (v : ℤ)
    (hrun : ∀ x ∈ run, x = u ∨ x = lo) (ht1 : t ≠ u) (ht2 : t ≠ lo) :
    ipSignedGo u lo v (run ++ t :: rest) =
      (v + run.sum + t) :: (if rest.isEmpty then [] else ipSignedGo u lo 0 rest) := by
  induction run generalizing v with
  | nil =>
    simp only [List.nil_append, ipSignedGo, List.sum_nil, add_zero]
    rw [if_neg (by tauto)]
  | cons s run ih =>
    have hs : s = u ∨ s = lo := hrun s (by simp)
    simp only [List.cons_append, ipSignedGo, List.append_eq]
    rw [if_pos hs, ih (v + s) (fun x hx => hrun x (List.mem_cons_of_mem s hx))]
    simp only [List.sum_cons]
    ring_nf

theorem blockTokens_ne_nil (b : List ℤ × ℤ) : blockTokens b ≠ [] := by
  simp [blockTokens]

theorem flatten_blockTokens_ne_nil (blocks : List (List ℤ × ℤ)) (h : blocks ≠ []) :
    (blocks.map blockTokens).flatten ≠ [] := by
  cases blocks with
  | nil => exact absurd rfl h
  | cons b rest =>
    simp only [List.map_cons, List.flatten_cons, ne_eq, List.append_eq_nil]
    intro hc
    exact blockTokens_ne_nil b hc.1

theorem ipSignedGo_blocks (u lo : ℤ) (blocks : List (List ℤ × ℤ))
    (hb : ∀ b ∈ blocks, (∀ x ∈ b.1, x = u ∨ x = lo) ∧ b.2 ≠ u ∧ b.2 ≠ lo)
    (hne : blocks ≠ []) :
    ipSignedGo u lo 0 ((blocks.map blockTokens).flatten) =
      blocks.map (fun b => b.1.sum + b.2) := by
  induction blocks with
  | nil => exact absurd rfl hne
  | cons b rest ih =>
    obtain ⟨hrun, ht1, ht2⟩ := hb b (by simp)
    have hbt : blockTokens b = b.1 ++ [b.2] := rfl
    cases rest with
    | nil =>
      simp only [List.map_cons, List.map_nil, List.flatten_cons, List.flatten_nil,
        List.append_nil, hbt]
      have h := ipSignedGo_block u lo b.1 b.2 [] 0 hrun ht1 ht2
      simpa using h
    | cons b2 rest2 =>
      have hfl : ((b2 :: rest2).map blockTokens).flatten ≠ [] :=
        flatten_blockTokens_ne_nil _ (by simp)
      have hassoc :
          ((b :: b2 :: rest2).map blockTokens).flatten =
            b.1 ++ b.2 :: ((b2 :: rest2).map blockTokens).flatten := by
        simp [hbt, List.append_assoc]
      rw [hassoc, ipSignedGo_block u lo b.1 b.2 _ 0 hrun ht1 ht2]
      rw [if_neg (by simpa [List.isEmpty_iff] using hfl)]
      rw [ih (fun x hx => hb x (by simp [hx])) (by simp)]
      simp

theorem fitInt32_of_length (l : List ℤ) :
    fitInt32 l.length l = l.map (wrapInt .int32) := by
  induction l with
  | nil => rfl
  | cons x xs ih =>
    simp only [fitInt32, List.length_cons, List.range_succ_eq_map, List.map_cons,
      List.getD_cons_zero, List.map_map]
    congr 1

/-- Claim C1: the signed IntegerPacking decoder walks the input left to
right, accumulating a running sum while the token equals
upper = 0x7F (byteCount 1) or 0x7FFF (otherwise) or lower = -upper - 1,
adds the first non-saturation token, emits the accumulated value into the
Int32 output and resets: whenever the input is a concatenation of groups
(saturation run + terminating token) whose count is srcSize, the output
is exactly the per-group sums stored as Int32. -/
theorem integerPackingSigned_blocks (byteCount srcSize : ℕ)
    (blocks : List (List ℤ × ℤ))
    (hb : ∀ b ∈ blocks,
      (∀ x ∈ b.1, x = satUpper byteCount ∨ x = satLower byteCount) ∧
      b.2 ≠ satUpper byteCount ∧ b.2 ≠ satLower byteCount)
    (hlen : blocks.length = srcSize) :
    integerPackingSigned byteCount srcSize ((blocks.map blockTokens).flatten) =
      blocks.map (fun b => wrapInt .int32 (b.1.sum + b.2)) := by
  subst hlen
  cases blocks with
  | nil => rfl
  | cons b rest =>
    have hne : (b :: rest : List (List ℤ × ℤ)) ≠ [] := by simp
    have hfl := flatten_blockTokens_ne_nil (b :: rest) hne
    simp only [integerPackingSigned]
    rw [if_neg (by simpa [List.isEmpty_iff] using hfl)]
    rw [ipSignedGo_blocks _ _ _ hb hne]
    have hlen2 : ((b :: rest).map (fun b => b.1.sum + b.2)).length =
        (b :: rest).length := by simp
    rw [← hlen2, fitInt32_of_length, List.map_map]
    rfl

theorem integerPackingSigned_blocks_witness :
    (∀ b ∈ ([([127, 127], 1), ([-128], -1), ([], 5)] : List (List ℤ × ℤ)),
      (∀ x ∈ b.1, x = satUpper 1 ∨ x = satLower 1) ∧
      b.2 ≠ satUpper 1 ∧ b.2 ≠ satLower 1) ∧
    integerPackingSigned 1 3 [127, 127, 1, -128, -1, 5] = [255, -129, 5] := by
  refine ⟨by decide, ?_⟩
  have h := integerPackingSigned_blocks 1 3
    [([127, 127], 1), ([-128], -1), ([], 5)] (by decide) rfl
  have h1 : (([([127, 127], 1), ([-128], -1), ([], 5)] :
      List (List ℤ × ℤ)).map blockTokens).flatten = [127, 127, 1, -128, -1, 5] := by
    decide
  have h2 : ([([127, 127], 1), ([-128], -1), ([], 5)] :
      List (List ℤ × ℤ)).map (fun b => wrapInt .int32 (b.1.sum + b.2)) =
        [255, -129, 5] := by decide
  rw [h1, h2] at h
  exact h

theorem absent_data_gives_sentinel_witness :
    lookupColumn [⟨"b", ⟨[.byteArray 4], none⟩, none⟩] "b" =
      some ⟨"b", ⟨[.byteArray 4], none⟩, none⟩ ∧
    getColumn ⟨"c2", 2, [⟨"b", ⟨[.byteArray 4], none⟩, none⟩]⟩ "b" =
      Except.ok Column.undefinedColumn :=
  ⟨rfl, (absent_data_gives_sentinel ⟨"c2", 2, [⟨"b", ⟨[.byteArray 4], none⟩, none⟩]⟩
    "b" ⟨"b", ⟨[.byteArray 4], none⟩, none⟩ rfl rfl).1⟩

end CIFB
